import Mathlib

/-!
# Exercise tracker: log query and registration handlers

A shallow embedding of `src/index.js`: the two Mongoose collections become lists inside a
`Store`, each Express handler becomes a function from the store and the request to the new
store and the outcome of the request, and the JavaScript built-ins the handlers call
(`parseInt`, `Number`, `new Date`, `toDateString`) are embedded as far as the handlers
exercise them.  Behaviour that ECMAScript leaves to the implementation, or that belongs to
the host (time zone), is a field of `Env`; every theorem is stated for an arbitrary `Env`
unless it says otherwise.
-/

namespace ExerciseTracker

/-! ## Numbers -/

/-- Values `parseInt` can return and Mongoose can store under `duration`: an integer-valued
double, an infinity, or NaN. -/
inductive JSNumber where
  | fin (n : Int)
  | inf (negative : Bool)
  | nan
  deriving DecidableEq, Repr

/-- Number of binary digits of `n`, with `fuel` bounding the recursion. -/
def bitLengthAux : Nat → Nat → Nat
  | 0, _ => 0
  | fuel + 1, n => if n = 0 then 0 else bitLengthAux fuel (n / 2) + 1

/-- Number of binary digits of `n` (0 for 0). -/
def bitLength (n : Nat) : Nat := bitLengthAux n n

/-- The IEEE-754 double nearest to the natural number `n`, ties to even; `none` when the
result needs more than 1024 binary digits, that is, when it is `2 ^ 1024` or more (the Number
is then `Infinity`). -/
def roundToDouble (n : Nat) : Option Nat :=
  if bitLength n ≤ 53 then some n
  else
    let sh := bitLength n - 53
    let q := n / 2 ^ sh
    let r := n % 2 ^ sh
    let half := 2 ^ (sh - 1)
    let q1 := if half < r ∨ (r = half ∧ q % 2 = 1) then q + 1 else q
    let v := q1 * 2 ^ sh
    if bitLength v ≤ 1024 then some v else none

/-- ECMAScript `WhiteSpace` and `LineTerminator` code points, the ones `parseInt` skips. -/
def isJSWhiteSpace (c : Char) : Bool :=
  let n := c.toNat
  n = 0x9 || n = 0xA || n = 0xB || n = 0xC || n = 0xD || n = 0x20 || n = 0xA0 ||
  n = 0x1680 || (0x2000 ≤ n && n ≤ 0x200A) || n = 0x2028 || n = 0x2029 || n = 0x202F ||
  n = 0x205F || n = 0x3000 || n = 0xFEFF

/-- Value of a character as a digit in radix up to 36. -/
def digitValue (c : Char) : Option Nat :=
  if '0' ≤ c ∧ c ≤ '9' then some (c.toNat - '0'.toNat)
  else if 'a' ≤ c ∧ c ≤ 'z' then some (c.toNat - 'a'.toNat + 10)
  else if 'A' ≤ c ∧ c ≤ 'Z' then some (c.toNat - 'A'.toNat + 10)
  else none

/-- Whether `c` is a digit of the given radix. -/
def isRadixDigit (radix : Nat) (c : Char) : Bool :=
  match digitValue c with
  | some v => decide (v < radix)
  | none => false

/-- Mathematical value of a digit sequence, most significant digit first. -/
def digitsValue (radix : Nat) (ds : List Char) : Nat :=
  ds.foldl (fun acc c => acc * radix + (digitValue c).getD 0) 0

/-- ECMAScript `parseInt(string)` with no radix argument: skip leading white space, read a
sign, read a `0x`/`0X` prefix (radix 16, otherwise 10), take the longest run of digits, and
return NaN when that run is empty. -/
def parseInt (s : String) : JSNumber :=
  let cs := s.toList.dropWhile isJSWhiteSpace
  let signed : Bool × List Char :=
    match cs with
    | '-' :: r => (true, r)
    | '+' :: r => (false, r)
    | _ => (false, cs)
  let prefixed : Nat × List Char :=
    match signed.2 with
    | '0' :: 'x' :: r => (16, r)
    | '0' :: 'X' :: r => (16, r)
    | r => (10, r)
  let ds := prefixed.2.takeWhile (isRadixDigit prefixed.1)
  if ds = [] then JSNumber.nan
  else
    match roundToDouble (digitsValue prefixed.1 ds) with
    | some v => JSNumber.fin (if signed.1 then -(v : Int) else (v : Int))
    | none => JSNumber.inf signed.1

/-! ## Dates

Time values are milliseconds since 1970-01-01T00:00:00Z, as in ECMAScript; a `Date` object is
an `Option Int`, `none` being the Invalid Date (time value NaN). -/

/-- Milliseconds per day. -/
def msPerDay : Int := 86400000

/-- ECMAScript `Day(t)`. -/
def Day (t : Int) : Int := t / msPerDay

/-- ECMAScript `DayFromYear(y)`: day number of 1 January of year `y`. -/
def DayFromYear (y : Int) : Int :=
  365 * (y - 1970) + (y - 1969) / 4 - (y - 1901) / 100 + (y - 1601) / 400

/-- ECMAScript `DaysInYear(y)`. -/
def DaysInYear (y : Int) : Int :=
  if y % 4 ≠ 0 then 365
  else if y % 100 ≠ 0 then 366
  else if y % 400 ≠ 0 then 365
  else 366

/-- Upward search for the last year starting on or before day `d`. -/
def yearSearch : Nat → Int → Int → Int
  | 0, _, y => y
  | fuel + 1, d, y => if DayFromYear (y + 1) ≤ d then yearSearch fuel d (y + 1) else y

/-- The largest year `y` with `DayFromYear y ≤ d`, found by searching upward from a year
that starts on or before `d`. -/
def YearFromDay (d : Int) : Int :=
  yearSearch (d.natAbs / 100000 + 2) d (1970 + (if 0 ≤ d then d / 366 else d / 365))

/-- ECMAScript `YearFromTime(t)`. -/
def YearFromTime (t : Int) : Int := YearFromDay (Day t)

/-- ECMAScript `InLeapYear(t)` as a number of extra days (0 or 1). -/
def InLeapYear (t : Int) : Int := if DaysInYear (YearFromTime t) = 366 then 1 else 0

/-- ECMAScript `DayWithinYear(t)`. -/
def DayWithinYear (t : Int) : Int := Day t - DayFromYear (YearFromTime t)

/-- ECMAScript `MonthFromTime(t)`: 0 for January up to 11 for December. -/
def MonthFromTime (t : Int) : Int :=
  let d := DayWithinYear t
  let l := InLeapYear t
  if d < 31 then 0
  else if d < 59 + l then 1
  else if d < 90 + l then 2
  else if d < 120 + l then 3
  else if d < 151 + l then 4
  else if d < 181 + l then 5
  else if d < 212 + l then 6
  else if d < 243 + l then 7
  else if d < 273 + l then 8
  else if d < 304 + l then 9
  else if d < 334 + l then 10
  else 11

/-- ECMAScript `DateFromTime(t)`: day of the month, from 1. -/
def DateFromTime (t : Int) : Int :=
  let d := DayWithinYear t
  let l := InLeapYear t
  match MonthFromTime t with
  | 0 => d + 1
  | 1 => d - 30
  | 2 => d - 58 - l
  | 3 => d - 89 - l
  | 4 => d - 119 - l
  | 5 => d - 150 - l
  | 6 => d - 180 - l
  | 7 => d - 211 - l
  | 8 => d - 242 - l
  | 9 => d - 272 - l
  | 10 => d - 303 - l
  | _ => d - 333 - l

/-- ECMAScript `WeekDay(t)`: 0 for Sunday up to 6 for Saturday. -/
def WeekDay (t : Int) : Int := (Day t + 4) % 7

/-- Number of days of the year before month `m` (0-based), `l` being 1 in a leap year. -/
def daysBeforeMonth (l : Int) (m : Nat) : Int :=
  match m with
  | 0 => 0
  | 1 => 31
  | 2 => 59 + l
  | 3 => 90 + l
  | 4 => 120 + l
  | 5 => 151 + l
  | 6 => 181 + l
  | 7 => 212 + l
  | 8 => 243 + l
  | 9 => 273 + l
  | 10 => 304 + l
  | _ => 334 + l

/-- Number of days in month `m` (0-based) of year `y`. -/
def daysInMonth (y : Int) (m : Nat) : Nat :=
  match m with
  | 1 => if DaysInYear y = 366 then 29 else 28
  | 3 => 30
  | 5 => 30
  | 8 => 30
  | 10 => 30
  | _ => 31

/-- ECMAScript `MakeDay(year, month, date)` for a month in 0..11: the day number of that
calendar date. -/
def MakeDay (y : Int) (m : Nat) (d : Int) : Int :=
  DayFromYear y + daysBeforeMonth (if DaysInYear y = 366 then 1 else 0) m + d - 1

/-- What the host and the libraries decide, outside `src/index.js`. -/
structure Env where
  /-- ECMAScript `LocalTZA(t, true)`: offset of local time from UTC, in milliseconds, at UTC
  time `t`. -/
  localTZA : Int → Int
  /-- The value of `Date.parse` on every string that is not a valid `YYYY-MM-DD`: the other forms of the
  date-time string format and the fallback ECMAScript leaves to the implementation. -/
  dateParseOther : String → Option Int
  /-- Mongoose's cast to `Date` on every string that is not a valid `YYYY-MM-DD`. -/
  castDateOther : String → Option Int
  /-- The value of `Number(s)` on every string that is not a run of decimal digits, as `$limit` sees it:
  `some v` when the Number is the non-negative integer `v`, `none` when it is NaN, negative,
  fractional or infinite. -/
  numberOther : String → Option Nat
  /-- Time value the driver writes for an Invalid Date used as a query bound (js-bson
  writes `Long.fromNumber(NaN)`, which is 0). -/
  invalidDateBound : Int

/-- Value of a decimal digit character. -/
def decimalDigit (c : Char) : Option Nat :=
  if '0' ≤ c ∧ c ≤ '9' then some (c.toNat - '0'.toNat) else none

/-- The date-only form `YYYY-MM-DD` of the ECMAScript date-time string format: the time
value of 00:00 UTC on that day, when the month is 01..12 and the day exists in that month. -/
def parseISODate (cs : List Char) : Option Int :=
  match cs with
  | [y1, y2, y3, y4, s1, m1, m2, s2, d1, d2] =>
    match decimalDigit y1, decimalDigit y2, decimalDigit y3, decimalDigit y4,
      decimalDigit m1, decimalDigit m2, decimalDigit d1, decimalDigit d2 with
    | some a, some b, some c, some d, some e, some f, some g, some h =>
      let year : Int := ((a * 1000 + b * 100 + c * 10 + d : Nat) : Int)
      let month := e * 10 + f
      let day := g * 10 + h
      if s1 = '-' ∧ s2 = '-' ∧ 1 ≤ month ∧ month ≤ 12 ∧ 1 ≤ day ∧
          day ≤ daysInMonth year (month - 1) then
        some (MakeDay year (month - 1) (day : Int) * msPerDay)
      else none
    | _, _, _, _, _, _, _, _ => none
  | _ => none

/-- The time value of `new Date(s)` for a string `s`; `none` is the Invalid Date. -/
def newDate (env : Env) (s : String) : Option Int :=
  match parseISODate s.toList with
  | some t => some t
  | none => env.dateParseOther s

/-- Mongoose's cast of a string to the schema type `Date`; `none` is a cast failure.  For a
valid `YYYY-MM-DD` the string is not numeric and the cast is `new Date(s)`. -/
def castDate (env : Env) (s : String) : Option Int :=
  match parseISODate s.toList with
  | some t => some t
  | none => env.castDateOther s

/-- ECMAScript `ToZeroPaddedDecimalString(n, minLength)`. -/
def toZeroPaddedDecimalString (n minLength : Nat) : String :=
  String.mk (List.replicate (minLength - (toString n).length) '0') ++ toString n

/-- English abbreviation of a week day, 0 for Sunday. -/
def weekDayName (w : Int) : String :=
  match w with
  | 0 => "Sun"
  | 1 => "Mon"
  | 2 => "Tue"
  | 3 => "Wed"
  | 4 => "Thu"
  | 5 => "Fri"
  | _ => "Sat"

/-- English abbreviation of a month, 0 for January. -/
def monthName (m : Int) : String :=
  match m with
  | 0 => "Jan"
  | 1 => "Feb"
  | 2 => "Mar"
  | 3 => "Apr"
  | 4 => "May"
  | 5 => "Jun"
  | 6 => "Jul"
  | 7 => "Aug"
  | 8 => "Sep"
  | 9 => "Oct"
  | 10 => "Nov"
  | _ => "Dec"

/-- ECMAScript `DateString(tv)`: week day, month, two-digit day and year of at least four
digits, separated by spaces. -/
def DateString (tv : Int) : String :=
  weekDayName (WeekDay tv) ++ " " ++ monthName (MonthFromTime tv) ++ " " ++
    toZeroPaddedDecimalString (DateFromTime tv).toNat 2 ++ " " ++
    (if 0 ≤ YearFromTime tv then "" else "-") ++
    toZeroPaddedDecimalString (YearFromTime tv).natAbs 4

/-- The method `Date.prototype.toDateString` applied to a Date: the date part of the local time. -/
def toDateString (env : Env) (date : Option Int) : String :=
  match date with
  | none => "Invalid Date"
  | some tv => DateString (tv + env.localTZA tv)

/-- The value `Number(limit)` as the `$limit` stage sees it: `some v` when the Number is the
non-negative integer `v`.  A run of decimal digits is the double nearest to its value. -/
def limitNumber (env : Env) (s : String) : Option Nat :=
  if s.toList ≠ [] ∧ s.toList.all (isRadixDigit 10) = true then
    roundToDouble (digitsValue 10 s.toList)
  else env.numberOther s

/-- JavaScript truthiness of an optional string: present and not empty. -/
def truthy (v : Option String) : Bool :=
  match v with
  | some s => decide (s ≠ "")
  | none => false

/-! ## The two collections -/

/-- A MongoDB ObjectId, as the number its 12 bytes write in base 256. -/
abbrev ObjectId := Nat

/-- Cast of a string to an ObjectId, by Mongoose in a query or a document and by
`new mongoose.Types.ObjectId(id)`: 24 hexadecimal digits. -/
def castObjectId (s : String) : Option ObjectId :=
  if s.length = 24 ∧ s.toList.all (isRadixDigit 16) = true then
    some (digitsValue 16 s.toList)
  else none

/-- A document of the `Users` collection (`userSchema`). -/
structure User where
  _id : ObjectId
  username : String
  deriving DecidableEq, Repr

/-- A document of the `Exercises` collection (`exerciseSchema`); `date` is optional. -/
structure Exercise where
  _id : ObjectId
  userId : ObjectId
  description : String
  duration : JSNumber
  date : Option Int
  deriving DecidableEq, Repr

/-- The database: both collections in insertion order. -/
structure Store where
  users : List User
  exercises : List Exercise
  deriving DecidableEq, Repr

/-- The database before any request. -/
def emptyStore : Store := ⟨[], []⟩

/-- Why a handler sent no response. -/
inductive Failure where
  /-- Mongoose could not cast the `_id` of a query. -/
  | castError
  /-- Document validation failed: a required path is missing or empty, or a value cannot be
  cast to the type of its path. -/
  | validationError
  /-- An insert hit a unique index (`_id`, or `username` of `Users`). -/
  | duplicateKey
  /-- A property was read on `null`. -/
  | typeError
  /-- The server rejected the aggregation pipeline. -/
  | pipelineError
  deriving DecidableEq, Repr

/-- The `date` of the object built by the exercise handler: the text of the request, or
`new Date().toISOString()` taken at time `now`. -/
inductive DateField where
  | text (s : String)
  | nowISO (now : Int)
  deriving DecidableEq, Repr

/-- One element of `log` in the logs response. -/
structure LogItem where
  description : String
  duration : JSNumber
  date : String
  deriving DecidableEq, Repr

/-- Body sent by a handler. -/
inductive Response where
  /-- The body of `res.json({ username, _id })`. -/
  | user (username : String) (_id : ObjectId)
  /-- The body of `res.send(allUsers)`. -/
  | users (all : List User)
  /-- The body of `res.json({ _id: id, username, ...exercise })`. -/
  | exercise (_id : String) (username : String) (userId : String)
      (description : Option String) (duration : JSNumber) (date : DateField)
  /-- The body of `res.send([])`, the answer of the logs handler for an unknown user. -/
  | emptyArray
  /-- The body of `res.json({ username, count, log })`. -/
  | logs (username : String) (count : Nat) (log : List LogItem)
  deriving DecidableEq, Repr

/-- How the handling of one request ends. -/
inductive Outcome where
  /-- A response was sent, with status 200. -/
  | sent (r : Response)
  /-- An error was caught and written to the console; no response is sent. -/
  | logged (e : Failure)
  /-- The handler's promise was rejected; no response is sent. -/
  | threw (e : Failure)
  deriving DecidableEq, Repr

/-- The query `User.findOne({ username })`.  An absent username matches no document, every stored
user having one. -/
def findOneByUsername (s : Store) (username : Option String) : Option User :=
  match username with
  | none => none
  | some n => s.users.find? (fun u => decide (u.username = n))

/-- The query `User.findOne({ _id })` once the id is cast. -/
def findOneById (s : Store) (oid : ObjectId) : Option User :=
  s.users.find? (fun u => decide (u._id = oid))

/-- The call `new User({ username }).save()` with the generated `_id`: validation (`required`, which
for a String path also refuses the empty string), then the insert under the unique indexes
on `_id` and `username`. -/
def saveUser (s : Store) (newId : ObjectId) (username : Option String) :
    Except Failure (Store × User) :=
  match username with
  | none => .error .validationError
  | some n =>
    if n = "" then .error .validationError
    else if s.users.any (fun u => decide (u._id = newId) || decide (u.username = n)) then
      .error .duplicateKey
    else .ok ({ s with users := s.users ++ [⟨newId, n⟩] }, ⟨newId, n⟩)

/-- The call `new Exercise(exercise).save()` with the generated `_id`: `description` is required,
`duration` must not be NaN, `date` must cast to a Date, and `_id` is unique. -/
def saveExercise (env : Env) (s : Store) (newId : ObjectId) (userId : ObjectId)
    (description : Option String) (duration : JSNumber) (date : DateField) :
    Except Failure Store :=
  match description with
  | none => .error .validationError
  | some desc =>
    if desc = "" then .error .validationError
    else if duration = JSNumber.nan then .error .validationError
    else
      let cast : Option Int :=
        match date with
        | .text d => castDate env d
        | .nowISO now => some now
      match cast with
      | none => .error .validationError
      | some t =>
        if s.exercises.any (fun e => decide (e._id = newId)) then .error .duplicateKey
        else
          .ok { s with exercises := s.exercises ++ [⟨newId, userId, desc, duration, some t⟩] }

/-! ## The handlers -/

/-- Handler `app.post('/api/users')`: return the user of that name when there is one, otherwise save
a new one; a failed save is caught and logged. -/
def postUsers (s : Store) (username : Option String) (newId : ObjectId) : Store × Outcome :=
  match findOneByUsername s username with
  | some existingUser => (s, .sent (.user existingUser.username existingUser._id))
  | none =>
    match saveUser s newId username with
    | .ok (s1, newUser) => (s1, .sent (.user newUser.username newUser._id))
    | .error e => (s, .logged e)

/-- Handler `app.get('/api/users')`: every stored user. -/
def getUsers (s : Store) : Outcome := .sent (.users s.users)

/-- Body of `POST /api/users/:id/exercises`. -/
structure ExerciseBody where
  description : Option String
  duration : Option String
  date : Option String
  deriving DecidableEq, Repr

/-- Handler `app.post('/api/users/:id/exercises')`: look the user up, log when there is none, build
and save the exercise, then answer with the user's name and the exercise.  `now` is the
server clock and `newId` the generated `_id`. -/
def postExercises (env : Env) (s : Store) (id : String) (body : ExerciseBody) (now : Int)
    (newId : ObjectId) : Store × Outcome :=
  match castObjectId id with
  | none => (s, .threw .castError)
  | some oid =>
    let user := findOneById s oid
    let duration := parseInt (body.duration.getD "undefined")
    let date := if truthy body.date then DateField.text (body.date.getD "") else .nowISO now
    match saveExercise env s newId oid body.description duration date with
    | .error e => (s, .threw e)
    | .ok s1 =>
      match user with
      | none => (s1, .threw .typeError)
      | some u => (s1, .sent (.exercise id u.username id body.description duration date))

/-- A stage of the aggregation pipeline built by the logs handler. -/
inductive Stage where
  /-- The stage `{ $match: { userId } }`. -/
  | matchUserId (userId : ObjectId)
  /-- The stage `{ $match: { date: dateFilter } }`; each bound is absent (outer `none`) or a Date. -/
  | matchDate (gte : Option (Option Int)) (lte : Option (Option Int))
  /-- The stage `{ $limit: Number(limit) }`, the Number as `limitNumber` gives it. -/
  | limit (n : Option Nat)
  deriving DecidableEq, Repr

/-- Whether the server accepts a stage: `$limit` takes a positive 64-bit integer. -/
def Stage.valid (st : Stage) : Bool :=
  match st with
  | .limit (some n) => decide (1 ≤ n ∧ n < 2 ^ 63)
  | .limit none => false
  | _ => true

/-- The time value written for a Date used as a query bound. -/
def boundValue (env : Env) (d : Option Int) : Int := d.getD env.invalidDateBound

/-- Whether a stored date passes `{ $gte, $lte }`.  A document without a date passes no
comparison, and the filter with no bound at all, `{ date: {} }`, asks for a date equal to
the empty document, which no Date is. -/
def dateMatches (env : Env) (gte lte : Option (Option Int)) (date : Option Int) : Bool :=
  match date with
  | none => false
  | some t =>
    !(gte.isNone && lte.isNone) &&
    (match gte with
      | some b => decide (boundValue env b ≤ t)
      | none => true) &&
    (match lte with
      | some b => decide (t ≤ boundValue env b)
      | none => true)

/-- Effect of one stage on the documents flowing through the pipeline. -/
def Stage.apply (env : Env) (st : Stage) (docs : List Exercise) : List Exercise :=
  match st with
  | .matchUserId uid => docs.filter (fun e => decide (e.userId = uid))
  | .matchDate gte lte => docs.filter (fun e => dateMatches env gte lte e.date)
  | .limit n => docs.take (n.getD 0)

/-- The call `Exercise.aggregate(pipeline).exec()`: the server refuses a pipeline with an invalid
stage, otherwise the stages act in order on the collection. -/
def aggregate (env : Env) (s : Store) (pipeline : List Stage) : Except Failure (List Exercise) :=
  if pipeline.all Stage.valid then
    .ok (pipeline.foldl (fun docs st => st.apply env docs) s.exercises)
  else .error .pipelineError

/-- Query string of `GET /api/users/:id/logs`: the parameters `from`, `to` and `limit`, each
absent or a string. -/
structure LogsQuery where
  from_ : Option String
  to_ : Option String
  limit : Option String
  deriving DecidableEq, Repr

/-- The pipeline the logs handler builds for a user and a query. -/
def buildPipeline (env : Env) (oid : ObjectId) (q : LogsQuery) : List Stage :=
  [Stage.matchUserId oid] ++
  (if truthy q.from_ || truthy q.to_ then
    [Stage.matchDate
      (if truthy q.from_ then some (newDate env (q.from_.getD "")) else none)
      (if truthy q.to_ then some (newDate env (q.to_.getD "")) else none)]
  else []) ++
  (if truthy q.limit then [Stage.limit (limitNumber env (q.limit.getD ""))] else [])

/-- The projection of a retained exercise in the log. -/
def logItem (env : Env) (e : Exercise) : LogItem :=
  ⟨e.description, e.duration, toDateString env e.date⟩

/-- Handler `app.get('/api/users/:id/logs')`: an unknown user gets `[]`; otherwise the pipeline is
built from the query and run, and its documents are counted and projected. -/
def getLogs (env : Env) (s : Store) (id : String) (q : LogsQuery) : Outcome :=
  match castObjectId id with
  | none => .threw .castError
  | some oid =>
    match findOneById s oid with
    | none => .sent .emptyArray
    | some user =>
      match aggregate env s (buildPipeline env oid q) with
      | .error e => .threw e
      | .ok exercises =>
        .sent (.logs user.username exercises.length (exercises.map (logItem env)))

/-- A request reaching the server, with what the server draws while handling it. -/
inductive Request where
  | postUsers (username : Option String) (newId : ObjectId)
  | getUsers
  | postExercises (id : String) (body : ExerciseBody) (now : Int) (newId : ObjectId)
  | getLogs (id : String) (q : LogsQuery)
  deriving DecidableEq, Repr

/-- Handling of one request: the store afterwards and the outcome. -/
def step (env : Env) (s : Store) (r : Request) : Store × Outcome :=
  match r with
  | .postUsers username newId => postUsers s username newId
  | .getUsers => (s, getUsers s)
  | .postExercises id body now newId => postExercises env s id body now newId
  | .getLogs id q => (s, getLogs env s id q)

/-- The store after a sequence of requests handled one after the other. -/
def run (env : Env) (s : Store) (rs : List Request) : Store :=
  rs.foldl (fun st r => (step env st r).1) s

/-! ## Words of the specification -/

/-- A numeral: a non-empty run of decimal digits. -/
def isNumeral (s : String) : Prop :=
  s.toList ≠ [] ∧ s.toList.all (isRadixDigit 10) = true

instance (s : String) : Decidable (isNumeral s) := by
  unfold isNumeral
  infer_instance

/-- The number a numeral writes. -/
def numeralValue (s : String) : Nat := digitsValue 10 s.toList

/-- The references of the exercises resolve: every stored `userId` is the `_id` of a stored
user. -/
def userIdsResolve (s : Store) : Prop :=
  ∀ e ∈ s.exercises, ∃ u ∈ s.users, u._id = e.userId

/-- The usernames are pairwise distinct and none is empty. -/
def usernamesWellFormed (s : Store) : Prop :=
  (s.users.map (fun u => u.username)).Nodup ∧ ∀ u ∈ s.users, u.username ≠ ""

/-- The exercises of user `uid` dated from `lo` to `hi`, both included, in storage order. -/
def entriesInRange (s : Store) (uid : ObjectId) (lo hi : Int) : List Exercise :=
  s.exercises.filter (fun e =>
    decide (e.userId = uid) &&
      (match e.date with
        | some d => decide (lo ≤ d ∧ d ≤ hi)
        | none => false))

/-- The character of a decimal digit. -/
def digitChar (k : Nat) : Char :=
  match k with
  | 0 => '0'
  | 1 => '1'
  | 2 => '2'
  | 3 => '3'
  | 4 => '4'
  | 5 => '5'
  | 6 => '6'
  | 7 => '7'
  | 8 => '8'
  | _ => '9'

/-- The text `YYYY-MM-DD` of the calendar date with year `y`, month `m` (from 1) and day `d`. -/
def isoDateText (y m d : Nat) : String :=
  String.mk [digitChar (y / 1000), digitChar (y / 100 % 10), digitChar (y / 10 % 10),
    digitChar (y % 10), '-', digitChar (m / 10), digitChar (m % 10), '-',
    digitChar (d / 10), digitChar (d % 10)]

/-- The text `toDateString` is specified to give for a calendar date: week day, month, day
and year. -/
def calendarText (y m d : Nat) : String :=
  weekDayName ((MakeDay y (m - 1) d + 4) % 7) ++ " " ++ monthName ((m - 1 : Nat) : Int) ++ " " ++
    toZeroPaddedDecimalString d 2 ++ " " ++ toZeroPaddedDecimalString y 4

/-- A host in the UTC time zone whose parsers accept nothing but `YYYY-MM-DD` and whose
driver writes an Invalid Date as time value 0. -/
def hostUTC : Env :=
  { localTZA := fun _ => 0
    dateParseOther := fun _ => none
    castDateOther := fun _ => none
    numberOther := fun _ => none
    invalidDateBound := 0 }

/-- The same host five hours west of UTC (Eastern Standard Time). -/
def hostEST : Env := { hostUTC with localTZA := fun _ => -18000000 }

/-- Identifier text of the first user of the examples. -/
def aliceId : String := "000000000000000000000001"

/-- Identifier text of a second user, unknown to `aliceStore`. -/
def strangerId : String := "000000000000000000000002"

/-- The exercise of the examples: a run of 30 minutes on 10 January 2023. -/
def runBody : ExerciseBody := ⟨some "run", some "30", some "2023-01-10"⟩

/-- The store after "alice" registered and submitted `runBody`. -/
def aliceStore : Store :=
  run hostUTC emptyStore [.postUsers (some "alice") 1, .postExercises aliceId runBody 0 7]

/-- A store with two users: "alice" with exercises on 10 January, 5 February and 1 March
2023, and "bob" with one on 11 January 2023. -/
def gymStore : Store :=
  run hostUTC emptyStore
    [.postUsers (some "alice") 1,
      .postUsers (some "bob") 2,
      .postExercises aliceId runBody 0 11,
      .postExercises strangerId ⟨some "swim", some "45", some "2023-01-11"⟩ 0 12,
      .postExercises aliceId ⟨some "row", some "20", some "2023-02-05"⟩ 0 13,
      .postExercises aliceId ⟨some "walk", some "60", some "2023-03-01"⟩ 0 14]

/-! ## Lemmas on the store and the pipeline -/

/-- A user found by identifier has that identifier. -/
theorem findOneById_id {s : Store} {oid : ObjectId} {u : User}
    (h : findOneById s oid = some u) : u._id = oid := by
  have h1 := List.find?_some h
  simpa using h1

/-- A user found by identifier is stored. -/
theorem findOneById_mem {s : Store} {oid : ObjectId} {u : User}
    (h : findOneById s oid = some u) : u ∈ s.users :=
  List.mem_of_find?_eq_some h

/-- A non-empty string is truthy. -/
theorem truthy_some {x : String} (h : x ≠ "") : truthy (some x) = true := by
  simp [truthy, h]

/-- The logs handler for a known user: the pipeline is run and its result shaped. -/
theorem getLogs_of_user {env : Env} {s : Store} {id : String} {oid : ObjectId} {u : User}
    (hid : castObjectId id = some oid) (hu : findOneById s oid = some u) (q : LogsQuery) :
    getLogs env s id q =
      match aggregate env s (buildPipeline env oid q) with
      | .error e => .threw e
      | .ok exercises =>
        .sent (.logs u.username exercises.length (exercises.map (logItem env))) := by
  simp [getLogs, hid, hu]

/-- Without filters the pipeline keeps the exercises of the user, all of them. -/
theorem getLogs_unfiltered (env : Env) (s : Store) (id : String) (oid : ObjectId) (u : User)
    (hid : castObjectId id = some oid) (hu : findOneById s oid = some u) :
    getLogs env s id ⟨none, none, none⟩ =
      .sent (.logs u.username
        (s.exercises.filter (fun e => decide (e.userId = u._id))).length
        ((s.exercises.filter (fun e => decide (e.userId = u._id))).map (logItem env))) := by
  rw [getLogs_of_user hid hu, findOneById_id hu]
  simp [buildPipeline, truthy, aggregate, Stage.valid, Stage.apply]

/-- A pipeline without a limit stage is accepted by the server. -/
theorem buildPipeline_nolimit_valid (env : Env) (oid : ObjectId) (from_ to_ : Option String) :
    (buildPipeline env oid ⟨from_, to_, none⟩).all Stage.valid = true := by
  unfold buildPipeline
  by_cases h : (truthy from_ || truthy to_) = true
  · simp [h, truthy, Stage.valid]
  · simp [h, truthy, Stage.valid]

/-- Without a limit stage the aggregation succeeds. -/
theorem aggregate_nolimit (env : Env) (s : Store) (oid : ObjectId) (from_ to_ : Option String) :
    aggregate env s (buildPipeline env oid ⟨from_, to_, none⟩) =
      .ok ((buildPipeline env oid ⟨from_, to_, none⟩).foldl
        (fun docs st => st.apply env docs) s.exercises) := by
  unfold aggregate
  rw [if_pos (buildPipeline_nolimit_valid env oid from_ to_)]

/-- With a date bound supplied, the pipeline is the user match followed by the date match. -/
theorem foldl_dateFilter (env : Env) (s : Store) (oid : ObjectId) (from_ to_ : Option String)
    (h : (truthy from_ || truthy to_) = true) :
    (buildPipeline env oid ⟨from_, to_, none⟩).foldl
        (fun docs st => st.apply env docs) s.exercises =
      (s.exercises.filter (fun e => decide (e.userId = oid))).filter
        (fun e => dateMatches env
          (if truthy from_ then some (newDate env (from_.getD "")) else none)
          (if truthy to_ then some (newDate env (to_.getD "")) else none) e.date) := by
  unfold buildPipeline
  rw [if_pos h]
  simp [Stage.apply, truthy]

/-! ## Numerals and rounding -/

/-- A number below a power of two has at most that many binary digits. -/
theorem bitLengthAux_le (fuel : Nat) : ∀ (n k : Nat), n < 2 ^ k → bitLengthAux fuel n ≤ k := by
  induction fuel with
  | zero => intro n k _; simp [bitLengthAux]
  | succ fuel ih =>
    intro n k h
    unfold bitLengthAux
    split
    · exact Nat.zero_le _
    · rename_i hn
      cases k with
      | zero => simp at h; exact absurd h hn
      | succ k =>
        have h2 : n / 2 < 2 ^ k := by
          rw [Nat.div_lt_iff_lt_mul (by decide)]
          rw [Nat.pow_succ] at h
          exact h
        exact Nat.succ_le_succ (ih (n / 2) k h2)

/-- Natural numbers up to `2 ^ 53` are doubles. -/
theorem roundToDouble_exact (n : Nat) (h : n ≤ 2 ^ 53) : roundToDouble n = some n := by
  rcases Nat.lt_or_eq_of_le h with h1 | h1
  · have := bitLengthAux_le n n 53 h1
    simp [roundToDouble, bitLength, this]
  · subst h1
    decide

/-- A numeral is not the empty string. -/
theorem isNumeral_ne_empty {s : String} (h : isNumeral s) : s ≠ "" := by
  rintro rfl
  exact h.1 rfl

/-- The Number of a numeral up to `2 ^ 53` is its value. -/
theorem limitNumber_numeral (env : Env) {s : String} (h : isNumeral s)
    (hv : numeralValue s ≤ 2 ^ 53) : limitNumber env s = some (numeralValue s) := by
  unfold limitNumber
  have h2 : s.toList ≠ [] ∧ s.toList.all (isRadixDigit 10) = true := h
  rw [if_pos h2]
  exact roundToDouble_exact _ hv

/-- A non-empty limit adds one limit stage, with its Number, at the end of the pipeline. -/
theorem buildPipeline_limit (env : Env) (oid : ObjectId) (from_ to_ : Option String)
    {lim : String} (hlim : lim ≠ "") :
    buildPipeline env oid ⟨from_, to_, some lim⟩ =
      buildPipeline env oid ⟨from_, to_, none⟩ ++ [Stage.limit (limitNumber env lim)] := by
  simp [buildPipeline, truthy, hlim]

/-- With a limit whose Number is an integer from 1 to below `2 ^ 63` the aggregation
truncates the filtered documents. -/
theorem aggregate_limit (env : Env) (s : Store) (oid : ObjectId) (from_ to_ : Option String)
    {lim : String} {N : Nat} (hlim : lim ≠ "") (hN : limitNumber env lim = some N)
    (h1 : 1 ≤ N) (h2 : N < 2 ^ 63) :
    aggregate env s (buildPipeline env oid ⟨from_, to_, some lim⟩) =
      .ok (((buildPipeline env oid ⟨from_, to_, none⟩).foldl
        (fun docs st => st.apply env docs) s.exercises).take N) := by
  rw [buildPipeline_limit env oid from_ to_ hlim, hN]
  unfold aggregate
  have hvalid : ((buildPipeline env oid ⟨from_, to_, none⟩ ++
      [Stage.limit (some N)]).all Stage.valid) = true := by
    rw [List.all_append, buildPipeline_nolimit_valid]
    simpa [Stage.valid] using And.intro h1 h2
  rw [if_pos hvalid, List.foldl_append]
  simp [Stage.apply]

/-- With a limit whose Number the server does not accept (not an integer from 1 to below
`2 ^ 63`), the logs handler of a known user sends nothing: the aggregation is rejected. -/
theorem getLogs_limit_rejected (env : Env) (s : Store) (id : String) (oid : ObjectId)
    (u : User) (from_ to_ : Option String) (lim : String)
    (hid : castObjectId id = some oid) (hu : findOneById s oid = some u) (hlim : lim ≠ "")
    (hbad : Stage.valid (Stage.limit (limitNumber env lim)) = false) :
    getLogs env s id ⟨from_, to_, some lim⟩ = .threw .pipelineError := by
  rw [getLogs_of_user hid hu, buildPipeline_limit env oid from_ to_ hlim]
  unfold aggregate
  have hinvalid : ((buildPipeline env oid ⟨from_, to_, none⟩ ++
      [Stage.limit (limitNumber env lim)]).all Stage.valid) = false := by
    rw [List.all_append, buildPipeline_nolimit_valid]
    simp [hbad]
  simp [hinvalid]

/-- Code points of the characters from 0 to 9. -/
theorem char_range_of_le {c : Char} (h : '0' ≤ c ∧ c ≤ '9') : 48 ≤ c.toNat ∧ c.toNat ≤ 57 := by
  obtain ⟨h1, h2⟩ := h
  rw [Char.le_def] at h1 h2
  constructor
  · exact h1
  · exact h2

/-- A decimal digit lies between the characters 0 and 9 and has the expected value. -/
theorem isRadixDigit_ten {c : Char} (h : isRadixDigit 10 c = true) :
    48 ≤ c.toNat ∧ c.toNat ≤ 57 ∧ digitValue c = some (c.toNat - 48) := by
  unfold isRadixDigit digitValue at h
  by_cases h0 : '0' ≤ c ∧ c ≤ '9'
  · have := char_range_of_le h0
    refine ⟨this.1, this.2, ?_⟩
    unfold digitValue
    rw [if_pos h0]
    rfl
  · rw [if_neg h0] at h
    split_ifs at h <;> simp at h

/-- A decimal digit is not white space. -/
theorem digit_not_space {c : Char} (h : isRadixDigit 10 c = true) : isJSWhiteSpace c = false := by
  have := isRadixDigit_ten h
  unfold isJSWhiteSpace
  simp
  omega

/-- A decimal digit differs from every character outside the digits. -/
theorem digit_ne_of_toNat {c d : Char} (h : isRadixDigit 10 c = true)
    (hd : d.toNat < 48 ∨ 57 < d.toNat) : c ≠ d := by
  have := isRadixDigit_ten h
  rintro rfl
  omega

/-- The longest run of digits of a digit sequence is all of it. -/
theorem takeWhile_digits (cs : List Char) (h : cs.all (isRadixDigit 10) = true) :
    cs.takeWhile (isRadixDigit 10) = cs := by
  rw [List.takeWhile_eq_self_iff]
  intro c hc
  exact List.all_eq_true.mp h c hc

/-- The function `parseInt` on an optional minus sign and decimal digits of value up to `2 ^ 53`. -/
theorem parseInt_digits (neg : Bool) (cs : List Char) (hne : cs ≠ [])
    (hall : cs.all (isRadixDigit 10) = true) (hv : digitsValue 10 cs ≤ 2 ^ 53) :
    parseInt (String.mk ((if neg then ['-'] else []) ++ cs)) =
      JSNumber.fin (if neg then -(digitsValue 10 cs : Int) else (digitsValue 10 cs : Int)) := by
  obtain ⟨c0, rest, rfl⟩ := List.exists_cons_of_ne_nil hne
  have hc0 : isRadixDigit 10 c0 = true := by
    simp only [List.all_cons, Bool.and_eq_true] at hall
    exact hall.1
  have hrest : rest.all (isRadixDigit 10) = true := by
    simp only [List.all_cons, Bool.and_eq_true] at hall
    exact hall.2
  have hws := digit_not_space hc0
  have hminus : c0 ≠ '-' := digit_ne_of_toNat hc0 (by decide)
  have hplus : c0 ≠ '+' := digit_ne_of_toNat hc0 (by decide)
  have hpre : (match c0 :: rest with
      | '0' :: 'x' :: r => ((16 : Nat), r)
      | '0' :: 'X' :: r => (16, r)
      | r => (10, r)) = (10, c0 :: rest) := by
    split
    · rename_i r heq
      simp only [List.cons.injEq] at heq
      have h1 : isRadixDigit 10 'x' = true := by
        have := hrest
        rw [heq.2] at this
        simp only [List.all_cons, Bool.and_eq_true] at this
        exact this.1
      exact absurd h1 (by decide)
    · rename_i r heq
      simp only [List.cons.injEq] at heq
      have h1 : isRadixDigit 10 'X' = true := by
        have := hrest
        rw [heq.2] at this
        simp only [List.all_cons, Bool.and_eq_true] at this
        exact this.1
      exact absurd h1 (by decide)
    · rfl
  have hround := roundToDouble_exact _ hv
  have hdrop : ∀ l : List Char, List.dropWhile isJSWhiteSpace (c0 :: l) = c0 :: l := by
    intro l
    exact List.dropWhile_cons_of_neg (by simp [hws])
  have htake := takeWhile_digits _ hall
  have hsign : (match c0 :: rest with
      | '-' :: r => (true, r)
      | '+' :: r => (false, r)
      | _ => (false, c0 :: rest)) = (false, c0 :: rest) := by
    split
    · rename_i r heq
      simp only [List.cons.injEq] at heq
      exact absurd heq.1 hminus
    · rename_i r heq
      simp only [List.cons.injEq] at heq
      exact absurd heq.1 hplus
    · rfl
  have hdash : List.dropWhile isJSWhiteSpace ('-' :: c0 :: rest) = '-' :: c0 :: rest :=
    List.dropWhile_cons_of_neg (by decide)
  cases neg
  · unfold parseInt
    simp only [Bool.false_eq_true, if_false, List.nil_append, String.toList, hdrop, hsign,
      hpre, htake, hround]
    simp
  · unfold parseInt
    simp only [if_true, List.cons_append, List.nil_append, String.toList, hdash, hpre, htake,
      hround]
    simp

/-- The function `parseInt` on a signed numeral of value up to `2 ^ 53`. -/
theorem parseInt_numeral (neg : Bool) (ds : String) (h : isNumeral ds)
    (hv : numeralValue ds ≤ 2 ^ 53) :
    parseInt ((if neg then "-" else "") ++ ds) =
      JSNumber.fin (if neg then -(numeralValue ds : Int) else (numeralValue ds : Int)) := by
  have := parseInt_digits neg ds.toList h.1 h.2 hv
  cases neg
  · simpa [numeralValue] using this
  · have e : "-" ++ ds = String.mk ('-' :: ds.toList) := by
      apply String.ext
      simp
    simpa [numeralValue, e] using this

/-! ## Registration -/

/-- Registration of a known username returns its user and changes nothing. -/
theorem postUsers_known {s : Store} {name : String} {u : User} (newId : ObjectId)
    (h : findOneByUsername s (some name) = some u) :
    postUsers s (some name) newId = (s, .sent (.user name u._id)) := by
  have hn : u.username = name := by
    have := List.find?_some h
    simpa using this
  simp [postUsers, h, hn]

/-- Registration of an unknown, non-empty username with an unused identifier stores it. -/
theorem postUsers_new {s : Store} {name : String} (newId : ObjectId) (hname : name ≠ "")
    (h : findOneByUsername s (some name) = none) (hfresh : ∀ u ∈ s.users, u._id ≠ newId) :
    postUsers s (some name) newId =
      ({ s with users := s.users ++ [⟨newId, name⟩] }, .sent (.user name newId)) := by
  have hnot : ∀ u ∈ s.users, u.username ≠ name := by
    intro u hu
    have := List.find?_eq_none.mp h u hu
    simpa using this
  have hany : s.users.any (fun u => decide (u._id = newId) || decide (u.username = name)) =
      false := by
    rw [List.any_eq_false]
    intro u hu
    simp [hfresh u hu, hnot u hu]
  simp [postUsers, h, saveUser, hname, hany]

/-- Registration keeps the usernames distinct and non-empty. -/
theorem postUsers_usernamesWellFormed (s : Store) (username : Option String) (newId : ObjectId)
    (h : usernamesWellFormed s) : usernamesWellFormed (postUsers s username newId).1 := by
  unfold postUsers
  cases hfind : findOneByUsername s username with
  | some u => simpa using h
  | none =>
    cases username with
    | none => simpa [saveUser] using h
    | some n =>
      by_cases hn : n = ""
      · simpa [saveUser, hn] using h
      · by_cases hany : s.users.any
            (fun u => decide (u._id = newId) || decide (u.username = n)) = true
        · simpa [saveUser, hn, hany] using h
        · simp only [saveUser, hn, hany, if_false, Bool.false_eq_true]
          have hnot : ∀ u ∈ s.users, u.username ≠ n := by
            intro u hu hun
            apply hany
            rw [List.any_eq_true]
            exact ⟨u, hu, by simp [hun]⟩
          refine ⟨?_, ?_⟩
          · simp only [List.map_append, List.map_cons, List.map_nil]
            rw [List.nodup_append]
            refine ⟨h.1, List.nodup_singleton _, ?_⟩
            intro a ha hb
            rw [List.mem_singleton] at hb
            subst hb
            obtain ⟨u, hu, hun⟩ := List.mem_map.mp ha
            exact hnot u hu hun
          · intro u hu
            rcases List.mem_append.mp hu with hu | hu
            · exact h.2 u hu
            · rw [List.mem_singleton] at hu
              subst hu
              exact hn

/-- Any sequence of registrations keeps the usernames distinct and non-empty. -/
theorem run_registrations_wellFormed (env : Env) (regs : List (Option String × ObjectId)) :
    ∀ s : Store, usernamesWellFormed s →
      usernamesWellFormed (run env s (regs.map (fun r => Request.postUsers r.1 r.2))) := by
  induction regs with
  | nil => intro s h; simpa [run] using h
  | cons r rest ih =>
    intro s h
    have := ih (postUsers s r.1 r.2).1 (postUsers_usernamesWellFormed s r.1 r.2 h)
    simpa [run, step] using this

/-! ## The calendar -/

/-- The next year starts `DaysInYear` days later. -/
theorem DayFromYear_succ (y : Int) : DayFromYear (y + 1) = DayFromYear y + DaysInYear y := by
  unfold DayFromYear DaysInYear
  split_ifs <;> omega

/-- Later years start later. -/
theorem DayFromYear_mono {a b : Int} (h : a ≤ b) : DayFromYear a ≤ DayFromYear b := by
  unfold DayFromYear
  omega

/-- From 1970 on, years take 365 to 366 days each. -/
theorem DayFromYear_bounds_after (z : Int) (h : 1970 ≤ z) :
    365 * (z - 1970) ≤ DayFromYear z ∧ DayFromYear z ≤ 366 * (z - 1970) := by
  unfold DayFromYear
  omega

/-- Before 1970, years take 365 to 366 days each. -/
theorem DayFromYear_bounds_before (z : Int) (h : z ≤ 1970) :
    366 * (z - 1970) ≤ DayFromYear z ∧ DayFromYear z ≤ 365 * (z - 1970) := by
  unfold DayFromYear
  omega

/-- The search reaches the year of the day when it starts at or before it with enough fuel. -/
theorem yearSearch_eq (d y : Int) (h1 : DayFromYear y ≤ d) (h2 : d < DayFromYear (y + 1)) :
    ∀ (fuel : Nat) (y0 : Int), y0 ≤ y → y - y0 ≤ fuel → yearSearch fuel d y0 = y := by
  intro fuel
  induction fuel with
  | zero =>
    intro y0 h3 h4
    simp only [yearSearch]
    omega
  | succ fuel ih =>
    intro y0 h3 h4
    simp only [yearSearch]
    by_cases hy : y0 = y
    · subst hy
      rw [if_neg (by omega)]
    · have hlt : y0 + 1 ≤ y := by omega
      have := DayFromYear_mono hlt
      rw [if_pos (by omega)]
      exact ih (y0 + 1) hlt (by push_cast at h4; omega)

/-- The year of a day is the one that contains it. -/
theorem YearFromDay_eq (d y : Int) (h1 : DayFromYear y ≤ d) (h2 : d < DayFromYear (y + 1)) :
    YearFromDay d = y := by
  unfold YearFromDay
  have hmono := @DayFromYear_mono
  rcases le_or_lt 1970 y with hy | hy
  · have b1 := DayFromYear_bounds_after y hy
    have b2 := DayFromYear_bounds_after (y + 1) (by omega)
    apply yearSearch_eq d y h1 h2
    · split_ifs <;> omega
    · split_ifs <;> omega
  · have b1 := DayFromYear_bounds_before y (by omega)
    have b2 := DayFromYear_bounds_before (y + 1) (by omega)
    apply yearSearch_eq d y h1 h2
    · split_ifs <;> omega
    · split_ifs <;> omega

/-- The day number of an instant within a day. -/
theorem Day_of_offset (a off : Int) (h1 : 0 ≤ off) (h2 : off < msPerDay) :
    Day (a * msPerDay + off) = a := by
  unfold Day msPerDay at *
  omega

/-- The length of a month, read off the table of days before each month. -/
theorem daysInMonth_le (y : Int) (m0 d : Nat) (l : Int)
    (hl : l = if DaysInYear y = 366 then 1 else 0) (hm : m0 < 12)
    (hd2 : d ≤ daysInMonth y m0) :
    (d : Int) ≤ daysBeforeMonth l (m0 + 1) - daysBeforeMonth l m0 +
      (if m0 = 11 then 31 else 0) := by
  interval_cases m0
  all_goals (simp only [daysInMonth] at hd2; simp only [daysBeforeMonth])
  all_goals (split_ifs at hd2 hl <;> simp <;> omega)

/-- A date of month `m0` falls between the starts of that month and of the next. -/
theorem within_year_bounds (l w : Int) (m0 : Nat) (d : Int) (hl : l = 0 ∨ l = 1)
    (hm : m0 < 12) (hd1 : 1 ≤ d)
    (hd2 : d ≤ daysBeforeMonth l (m0 + 1) - daysBeforeMonth l m0 +
      (if m0 = 11 then 31 else 0))
    (hw : w = daysBeforeMonth l m0 + d - 1) :
    0 ≤ w ∧ w < 365 + l ∧ daysBeforeMonth l m0 ≤ w ∧
      w < daysBeforeMonth l (m0 + 1) + (if m0 = 11 then 31 else 0) := by
  interval_cases m0
  all_goals simp only [daysBeforeMonth] at hw
  all_goals simp only [daysBeforeMonth] at hd2
  all_goals simp at hd2
  all_goals simp [daysBeforeMonth]
  all_goals omega

/-- The month of a day of the year, from the bounds of the month. -/
theorem month_of_bounds (l w : Int) (m0 : Nat) (hl : l = 0 ∨ l = 1) (hm : m0 < 12)
    (h3 : daysBeforeMonth l m0 ≤ w)
    (h4 : w < daysBeforeMonth l (m0 + 1) + (if m0 = 11 then 31 else 0)) :
    (if w < 31 then (0 : Int)
      else if w < 59 + l then 1
      else if w < 90 + l then 2
      else if w < 120 + l then 3
      else if w < 151 + l then 4
      else if w < 181 + l then 5
      else if w < 212 + l then 6
      else if w < 243 + l then 7
      else if w < 273 + l then 8
      else if w < 304 + l then 9
      else if w < 334 + l then 10
      else 11) = m0 := by
  interval_cases m0
  all_goals simp only [daysBeforeMonth] at h3
  all_goals simp only [daysBeforeMonth] at h4
  all_goals simp at h4
  all_goals repeat (first | rw [if_pos (by omega)] | rw [if_neg (by omega)])
  all_goals rfl

/-- The leap day count is 0 or 1. -/
theorem leapDay_cases (y : Int) :
    (if DaysInYear y = 366 then (1 : Int) else 0) = 0 ∨
      (if DaysInYear y = 366 then (1 : Int) else 0) = 1 := by
  split_ifs <;> simp

/-- A year has 365 days and its leap day. -/
theorem DaysInYear_eq (y : Int) :
    DaysInYear y = 365 + (if DaysInYear y = 366 then 1 else 0) := by
  unfold DaysInYear
  split_ifs <;> simp_all

/-- A calendar date lies within its year. -/
theorem MakeDay_within_year (y : Int) (m0 d : Nat) (hm : m0 < 12) (hd1 : 1 ≤ d)
    (hd2 : d ≤ daysInMonth y m0) :
    DayFromYear y ≤ MakeDay y m0 d ∧ MakeDay y m0 d < DayFromYear (y + 1) := by
  have hb := within_year_bounds (if DaysInYear y = 366 then 1 else 0)
    (daysBeforeMonth (if DaysInYear y = 366 then 1 else 0) m0 + d - 1) m0 d
    (leapDay_cases y) hm (by exact_mod_cast hd1)
    (daysInMonth_le y m0 d _ rfl hm hd2) rfl
  rw [DayFromYear_succ, DaysInYear_eq y]
  unfold MakeDay
  omega

/-- The year of an instant of a calendar date. -/
theorem YearFromTime_of_date (y : Int) (m0 d : Nat) (off : Int) (hm : m0 < 12) (hd1 : 1 ≤ d)
    (hd2 : d ≤ daysInMonth y m0) (h1 : 0 ≤ off) (h2 : off < msPerDay) :
    YearFromTime (MakeDay y m0 d * msPerDay + off) = y := by
  unfold YearFromTime
  rw [Day_of_offset _ _ h1 h2]
  have := MakeDay_within_year y m0 d hm hd1 hd2
  exact YearFromDay_eq _ _ this.1 this.2

/-- The day within the year of an instant of a calendar date. -/
theorem DayWithinYear_of_date (y : Int) (m0 d : Nat) (off : Int) (hm : m0 < 12) (hd1 : 1 ≤ d)
    (hd2 : d ≤ daysInMonth y m0) (h1 : 0 ≤ off) (h2 : off < msPerDay) :
    DayWithinYear (MakeDay y m0 d * msPerDay + off) =
      daysBeforeMonth (if DaysInYear y = 366 then 1 else 0) m0 + d - 1 := by
  unfold DayWithinYear
  rw [YearFromTime_of_date y m0 d off hm hd1 hd2 h1 h2, Day_of_offset _ _ h1 h2]
  unfold MakeDay
  omega

/-- The leap day count at an instant of a calendar date. -/
theorem InLeapYear_of_date (y : Int) (m0 d : Nat) (off : Int) (hm : m0 < 12) (hd1 : 1 ≤ d)
    (hd2 : d ≤ daysInMonth y m0) (h1 : 0 ≤ off) (h2 : off < msPerDay) :
    InLeapYear (MakeDay y m0 d * msPerDay + off) = if DaysInYear y = 366 then 1 else 0 := by
  unfold InLeapYear
  rw [YearFromTime_of_date y m0 d off hm hd1 hd2 h1 h2]

/-- The month of an instant of a calendar date. -/
theorem MonthFromTime_of_date (y : Int) (m0 d : Nat) (off : Int) (hm : m0 < 12) (hd1 : 1 ≤ d)
    (hd2 : d ≤ daysInMonth y m0) (h1 : 0 ≤ off) (h2 : off < msPerDay) :
    MonthFromTime (MakeDay y m0 d * msPerDay + off) = m0 := by
  unfold MonthFromTime
  rw [DayWithinYear_of_date y m0 d off hm hd1 hd2 h1 h2,
    InLeapYear_of_date y m0 d off hm hd1 hd2 h1 h2]
  have hb := within_year_bounds (if DaysInYear y = 366 then 1 else 0)
    (daysBeforeMonth (if DaysInYear y = 366 then 1 else 0) m0 + d - 1) m0 d
    (leapDay_cases y) hm (by exact_mod_cast hd1)
    (daysInMonth_le y m0 d _ rfl hm hd2) rfl
  exact month_of_bounds _ _ m0 (leapDay_cases y) hm hb.2.2.1 hb.2.2.2

/-- The day of the month of an instant of a calendar date. -/
theorem DateFromTime_of_date (y : Int) (m0 d : Nat) (off : Int) (hm : m0 < 12) (hd1 : 1 ≤ d)
    (hd2 : d ≤ daysInMonth y m0) (h1 : 0 ≤ off) (h2 : off < msPerDay) :
    DateFromTime (MakeDay y m0 d * msPerDay + off) = d := by
  unfold DateFromTime
  rw [MonthFromTime_of_date y m0 d off hm hd1 hd2 h1 h2,
    DayWithinYear_of_date y m0 d off hm hd1 hd2 h1 h2,
    InLeapYear_of_date y m0 d off hm hd1 hd2 h1 h2]
  interval_cases m0 <;> simp [daysBeforeMonth] <;> omega

/-- The week day of an instant within a day. -/
theorem WeekDay_of_date (a off : Int) (h1 : 0 ≤ off) (h2 : off < msPerDay) :
    WeekDay (a * msPerDay + off) = (a + 4) % 7 := by
  unfold WeekDay
  rw [Day_of_offset _ _ h1 h2]

/-! ## Date texts and submission -/

/-- Reading a digit character gives the digit back. -/
theorem decimalDigit_digitChar (k : Nat) (h : k < 10) : decimalDigit (digitChar k) = some k := by
  interval_cases k <;> rfl

/-- Parsing the text of a calendar date gives midnight UTC of that date. -/
theorem parseISODate_isoDateText (y m d : Nat) (hy : y ≤ 9999) (hm1 : 1 ≤ m) (hm2 : m ≤ 12)
    (hd1 : 1 ≤ d) (hd2 : d ≤ daysInMonth y (m - 1)) :
    parseISODate (isoDateText y m d).toList = some (MakeDay y (m - 1) d * msPerDay) := by
  have hd3 : d ≤ 31 := by
    refine le_trans hd2 ?_
    unfold daysInMonth
    split <;> first | omega | (split_ifs <;> omega)
  have ey : y / 1000 * 1000 + y / 100 % 10 * 100 + y / 10 % 10 * 10 + y % 10 = y := by omega
  have em : m / 10 * 10 + m % 10 = m := by omega
  have ed : d / 10 * 10 + d % 10 = d := by omega
  simp only [isoDateText, String.toList, parseISODate,
    decimalDigit_digitChar (y / 1000) (by omega), decimalDigit_digitChar (y / 100 % 10) (by omega),
    decimalDigit_digitChar (y / 10 % 10) (by omega), decimalDigit_digitChar (y % 10) (by omega),
    decimalDigit_digitChar (m / 10) (by omega), decimalDigit_digitChar (m % 10) (by omega),
    decimalDigit_digitChar (d / 10) (by omega), decimalDigit_digitChar (d % 10) (by omega),
    ey, em, ed]
  rw [if_pos ⟨trivial, trivial, hm1, hm2, hd1, hd2⟩]

/-- With local time at or ahead of UTC by less than a day, midnight UTC of a date prints as that date. -/
theorem toDateString_of_date (env : Env) (y m d : Nat) (hm1 : 1 ≤ m) (hm2 : m ≤ 12)
    (hd1 : 1 ≤ d) (hd2 : d ≤ daysInMonth y (m - 1))
    (htz1 : 0 ≤ env.localTZA (MakeDay y (m - 1) d * msPerDay))
    (htz2 : env.localTZA (MakeDay y (m - 1) d * msPerDay) < msPerDay) :
    toDateString env (some (MakeDay y (m - 1) d * msPerDay)) = calendarText y m d := by
  have hm : m - 1 < 12 := by omega
  simp only [toDateString, DateString, calendarText]
  rw [WeekDay_of_date _ _ htz1 htz2, MonthFromTime_of_date y (m - 1) d _ hm hd1 hd2 htz1 htz2,
    DateFromTime_of_date y (m - 1) d _ hm hd1 hd2 htz1 htz2,
    YearFromTime_of_date y (m - 1) d _ hm hd1 hd2 htz1 htz2]
  simp

/-- The text of a calendar date is not empty. -/
theorem isoDateText_ne_empty (y m d : Nat) : isoDateText y m d ≠ "" := by
  intro h
  have := congrArg String.length h
  simp [isoDateText] at this

/-- Submission of a well-formed exercise for a known user stores one entry and answers. -/
theorem postExercises_valid (env : Env) (s : Store) (id : String) (oid : ObjectId) (u : User)
    (desc : String) (neg : Bool) (ds : String) (y m d : Nat) (now : Int) (newId : ObjectId)
    (hid : castObjectId id = some oid) (hu : findOneById s oid = some u)
    (hdesc : desc ≠ "") (hnum : isNumeral ds) (hv : numeralValue ds ≤ 2 ^ 53)
    (hy : y ≤ 9999) (hm1 : 1 ≤ m) (hm2 : m ≤ 12) (hd1 : 1 ≤ d)
    (hd2 : d ≤ daysInMonth y (m - 1)) (hfresh : ∀ e ∈ s.exercises, e._id ≠ newId) :
    postExercises env s id
        ⟨some desc, some ((if neg then "-" else "") ++ ds), some (isoDateText y m d)⟩ now newId =
      ({ s with exercises := s.exercises ++
          [⟨newId, oid, desc,
            JSNumber.fin (if neg then -(numeralValue ds : Int) else (numeralValue ds : Int)),
            some (MakeDay y (m - 1) d * msPerDay)⟩] },
        .sent (.exercise id u.username id (some desc)
          (JSNumber.fin (if neg then -(numeralValue ds : Int) else (numeralValue ds : Int)))
          (.text (isoDateText y m d)))) := by
  have hany : s.exercises.any (fun e => decide (e._id = newId)) = false := by
    rw [List.any_eq_false]
    intro e he
    simp [hfresh e he]
  have hcast : castDate env (isoDateText y m d) = some (MakeDay y (m - 1) d * msPerDay) := by
    unfold castDate
    rw [parseISODate_isoDateText y m d hy hm1 hm2 hd1 hd2]
  simp [postExercises, hid, hu, parseInt_numeral neg ds hnum hv, truthy,
    isoDateText_ne_empty, saveExercise, hdesc, hcast, hany]

/-! ## The claims -/

/-- C1: for an existing user and two well-formed (non-empty, parseable) date strings `from`
and `to`, with no limit, the logs response is built from a sub-sequence `retained` of the
stored exercises that holds exactly the user's entries dated from `parse(from)` to
`parse(to)`, both ends included. -/
theorem logs_range_inclusive (env : Env) (s : Store) (id : String) (oid : ObjectId) (u : User)
    (from_ to_ : String) (f t : Int)
    (hid : castObjectId id = some oid) (hu : findOneById s oid = some u)
    (hfrom : from_ ≠ "") (hto : to_ ≠ "")
    (hf : newDate env from_ = some f) (ht : newDate env to_ = some t) :
    ∃ retained : List Exercise,
      getLogs env s id ⟨some from_, some to_, none⟩ =
        .sent (.logs u.username retained.length (retained.map (logItem env))) ∧
      retained.Sublist s.exercises ∧
      ∀ e, e ∈ retained ↔
        e ∈ s.exercises ∧ e.userId = u._id ∧ ∃ d, e.date = some d ∧ f ≤ d ∧ d ≤ t := by
  refine ⟨(s.exercises.filter (fun e => decide (e.userId = oid))).filter
    (fun e => dateMatches env (some (some f)) (some (some t)) e.date), ?_, ?_, ?_⟩
  · rw [getLogs_of_user hid hu]
    simp [buildPipeline, truthy, hfrom, hto, hf, ht, aggregate, Stage.valid, Stage.apply]
  · exact (List.filter_sublist _).trans (List.filter_sublist _)
  · intro e
    rw [findOneById_id hu]
    cases hd : e.date with
    | none => simp [List.mem_filter, dateMatches, hd]
    | some d =>
      simp [List.mem_filter, dateMatches, hd, boundValue]
      tauto

/-- C1 witness: alice's log from 1 January to 28 February 2023 in `gymStore`. -/
theorem logs_range_inclusive_gym :
    ∃ retained : List Exercise,
      getLogs hostUTC gymStore aliceId ⟨some "2023-01-01", some "2023-02-28", none⟩ =
        .sent (.logs "alice" retained.length (retained.map (logItem hostUTC))) ∧
      retained.Sublist gymStore.exercises ∧
      ∀ e, e ∈ retained ↔
        e ∈ gymStore.exercises ∧ e.userId = 1 ∧
          ∃ d, e.date = some d ∧ 1672531200000 ≤ d ∧ d ≤ 1677542400000 :=
  logs_range_inclusive hostUTC gymStore aliceId 1 ⟨1, "alice"⟩ "2023-01-01" "2023-02-28"
    1672531200000 1677542400000 (by decide) (by decide) (by decide) (by decide) (by decide)
    (by decide)

/-- C2 amended: for an existing user, any `from` and `to`, and a limit whose Number is an
integer `N` with `1 ≤ N < 2 ^ 63` (for a numeral up to `2 ^ 53`, the number it writes), the
logs request is answered, its count is the length of its log, and the log has at most `N`
entries. -/
theorem logs_limit_bound (env : Env) (s : Store) (id : String) (oid : ObjectId) (u : User)
    (from_ to_ : Option String) (lim : String) (N : Nat)
    (hid : castObjectId id = some oid) (hu : findOneById s oid = some u)
    (hlim : lim ≠ "") (hN : limitNumber env lim = some N) (h1 : 1 ≤ N) (h2 : N < 2 ^ 63) :
    ∃ log : List LogItem,
      getLogs env s id ⟨from_, to_, some lim⟩ = .sent (.logs u.username log.length log) ∧
      log.length ≤ N := by
  rw [getLogs_of_user hid hu, aggregate_limit env s oid from_ to_ hlim hN h1 h2]
  refine ⟨(((buildPipeline env oid ⟨from_, to_, none⟩).foldl
    (fun docs st => st.apply env docs) s.exercises).take N).map (logItem env), ?_, ?_⟩
  · simp only [List.length_map]
  · simp only [List.length_map, List.length_take]
    exact Nat.min_le_left _ _

/-- C2 witness: alice's log in `gymStore` with limit 2. -/
theorem logs_limit_bound_gym :
    ∃ log : List LogItem,
      getLogs hostUTC gymStore aliceId ⟨none, none, some "2"⟩ =
        .sent (.logs "alice" log.length log) ∧
      log.length ≤ 2 :=
  logs_limit_bound hostUTC gymStore aliceId 1 ⟨1, "alice"⟩ none none "2" 2 (by decide)
    (by decide) (by decide) (by decide) (by decide) (by decide)

/-- C2 counterexample: with `limit=0`, and with `limit=9223372036854775808` (which is
`2 ^ 63`), the server rejects the `$limit` stage and the handler sends nothing, so for these
numerals there is no response with a log of at most that many entries. -/
theorem logs_limit_zero_unanswered :
    getLogs hostUTC gymStore aliceId ⟨none, none, some "0"⟩ = .threw .pipelineError ∧
      getLogs hostUTC gymStore aliceId ⟨none, none, some "9223372036854775808"⟩ =
        .threw .pipelineError ∧
      ¬ ∃ log : List LogItem,
        getLogs hostUTC gymStore aliceId ⟨none, none, some "0"⟩ =
          .sent (.logs "alice" log.length log) ∧
        log.length ≤ numeralValue "0" := by
  have h : getLogs hostUTC gymStore aliceId ⟨none, none, some "0"⟩ =
      .threw .pipelineError := by decide
  refine ⟨h, by decide, ?_⟩
  rintro ⟨log, h2, -⟩
  rw [h] at h2
  cases h2

/-- C3 amended: for an existing user, non-empty `from` and `to`, and a limit whose Number is
an integer `N` with `1 ≤ N < 2 ^ 63` (for a numeral up to `2 ^ 53`, the number it writes),
the log is the projection of the first `N` of the user's entries within the bounds the
handler builds, in storage order; when at least `N` entries are within the bounds the log
has exactly `N` entries. -/
theorem logs_filter_then_truncate (env : Env) (s : Store) (id : String) (oid : ObjectId)
    (u : User) (from_ to_ lim : String) (N : Nat)
    (hid : castObjectId id = some oid) (hu : findOneById s oid = some u)
    (hfrom : from_ ≠ "") (hto : to_ ≠ "")
    (hlim : lim ≠ "") (hN : limitNumber env lim = some N) (h1 : 1 ≤ N) (h2 : N < 2 ^ 63) :
    getLogs env s id ⟨some from_, some to_, some lim⟩ =
      .sent (.logs u.username
        ((entriesInRange s u._id (boundValue env (newDate env from_))
          (boundValue env (newDate env to_))).take N).length
        (((entriesInRange s u._id (boundValue env (newDate env from_))
          (boundValue env (newDate env to_))).take N).map (logItem env))) ∧
    (N ≤ (entriesInRange s u._id (boundValue env (newDate env from_))
        (boundValue env (newDate env to_))).length →
      ((entriesInRange s u._id (boundValue env (newDate env from_))
        (boundValue env (newDate env to_))).take N).length = N) := by
  constructor
  · rw [getLogs_of_user hid hu, aggregate_limit env s oid (some from_) (some to_) hlim hN h1 h2,
      findOneById_id hu]
    have hF : (buildPipeline env oid ⟨some from_, some to_, none⟩).foldl
        (fun docs st => st.apply env docs) s.exercises =
        entriesInRange s oid (boundValue env (newDate env from_))
          (boundValue env (newDate env to_)) := by
      have hp : buildPipeline env oid ⟨some from_, some to_, none⟩ =
          [Stage.matchUserId oid,
            Stage.matchDate (some (newDate env from_)) (some (newDate env to_))] := by
        simp [buildPipeline, truthy, hfrom, hto]
      rw [hp]
      simp only [List.foldl_cons, List.foldl_nil, Stage.apply, List.filter_filter,
        entriesInRange]
      apply List.filter_congr
      intro e _
      cases hd : e.date <;> simp [dateMatches, Bool.and_comm]
    rw [hF]
  · intro h
    simp [List.length_take, h]

/-- C3 witness: alice's log in `gymStore` from 5 February to 1 March 2023 with limit 1 starts
at the first entry in range, not at her first entry. -/
theorem logs_filter_then_truncate_gym :
    getLogs hostUTC gymStore aliceId ⟨some "2023-02-05", some "2023-03-01", some "1"⟩ =
      .sent (.logs "alice" 1 [⟨"row", JSNumber.fin 20, "Sun Feb 05 2023"⟩]) := by
  have h := (logs_filter_then_truncate hostUTC gymStore aliceId 1 ⟨1, "alice"⟩ "2023-02-05"
    "2023-03-01" "1" 1 (by decide) (by decide) (by decide) (by decide) (by decide)
    (by decide) (by decide) (by decide)).1
  rw [h]
  decide

/-- C3 counterexample: with a range and `limit=0`, or `limit=9223372036854775808` (which is
`2 ^ 63`), the handler sends nothing, so no log equal to the first entries in range is
returned. -/
theorem logs_range_limit_zero_unanswered :
    getLogs hostUTC gymStore aliceId ⟨some "2023-01-01", some "2023-12-31", some "0"⟩ =
        .threw .pipelineError ∧
      getLogs hostUTC gymStore aliceId
          ⟨some "2023-01-01", some "2023-12-31", some "9223372036854775808"⟩ =
        .threw .pipelineError ∧
      getLogs hostUTC gymStore aliceId ⟨some "2023-01-01", some "2023-12-31", some "0"⟩ ≠
        .sent (.logs "alice" 0 []) := by
  have h : getLogs hostUTC gymStore aliceId
      ⟨some "2023-01-01", some "2023-12-31", some "0"⟩ = .threw .pipelineError := by decide
  refine ⟨h, by decide, ?_⟩
  rw [h]
  intro h2
  cases h2

/-- C4: for an existing user and a request without `from`, `to` and `limit`, the response
carries the user's username, the number of stored exercises whose `userId` is the user's
identifier, and the projection of exactly those exercises, in storage order. -/
theorem logs_unfiltered_exact (env : Env) (s : Store) (id : String) (oid : ObjectId) (u : User)
    (hid : castObjectId id = some oid) (hu : findOneById s oid = some u) :
    getLogs env s id ⟨none, none, none⟩ =
      .sent (.logs u.username
        (s.exercises.filter (fun e => decide (e.userId = u._id))).length
        ((s.exercises.filter (fun e => decide (e.userId = u._id))).map (logItem env))) :=
  getLogs_unfiltered env s id oid u hid hu

/-- C4 witness: alice's unfiltered log in `gymStore` has her three entries and not bob's. -/
theorem logs_unfiltered_exact_gym :
    getLogs hostUTC gymStore aliceId ⟨none, none, none⟩ =
      .sent (.logs "alice" 3
        [⟨"run", JSNumber.fin 30, "Tue Jan 10 2023"⟩,
          ⟨"row", JSNumber.fin 20, "Sun Feb 05 2023"⟩,
          ⟨"walk", JSNumber.fin 60, "Wed Mar 01 2023"⟩]) := by
  rw [logs_unfiltered_exact hostUTC gymStore aliceId 1 ⟨1, "alice"⟩ (by decide) (by decide)]
  decide

/-- C5 amended: for a non-empty username, the identifier drawn for the first registration
being one not in use, two successive registrations answer with the same identifier and the
second leaves the store as the first left it. -/
theorem register_twice_same_id (s : Store) (name : String) (id1 id2 : ObjectId)
    (hname : name ≠ "") (hfresh : ∀ u ∈ s.users, u._id ≠ id1) :
    ∃ uid : ObjectId,
      (postUsers s (some name) id1).2 = .sent (.user name uid) ∧
      (postUsers (postUsers s (some name) id1).1 (some name) id2).2 = .sent (.user name uid) ∧
      (postUsers (postUsers s (some name) id1).1 (some name) id2).1 =
        (postUsers s (some name) id1).1 := by
  cases h : findOneByUsername s (some name) with
  | some u =>
    refine ⟨u._id, ?_, ?_, ?_⟩ <;> simp [postUsers_known _ h]
  | none =>
    have h2 : findOneByUsername { s with users := s.users ++ [⟨id1, name⟩] } (some name) =
        some ⟨id1, name⟩ := by
      have h0 : s.users.find? (fun u => decide (u.username = name)) = none := h
      simp [findOneByUsername, List.find?_append, h0]
    refine ⟨id1, ?_, ?_, ?_⟩ <;>
      simp [postUsers_new id1 hname h hfresh, postUsers_known _ h2]

/-- C5 witness: "alice" registered twice on the empty store. -/
theorem register_twice_same_id_alice :
    ∃ uid : ObjectId,
      (postUsers emptyStore (some "alice") 1).2 = .sent (.user "alice" uid) ∧
      (postUsers (postUsers emptyStore (some "alice") 1).1 (some "alice") 2).2 =
        .sent (.user "alice" uid) ∧
      (postUsers (postUsers emptyStore (some "alice") 1).1 (some "alice") 2).1 =
        (postUsers emptyStore (some "alice") 1).1 :=
  register_twice_same_id emptyStore "alice" 1 2 (by decide) (by simp [emptyStore])

/-- C5 counterexample: registering the empty username answers with no identifier, the first
time and the second: the save fails validation, the error is logged and nothing is sent. -/
theorem register_empty_name_unanswered :
    postUsers emptyStore (some "") 1 = (emptyStore, .logged .validationError) ∧
      postUsers (postUsers emptyStore (some "") 1).1 (some "") 2 =
        (emptyStore, .logged .validationError) ∧
      ¬ ∃ uid : ObjectId, (postUsers emptyStore (some "") 1).2 = .sent (.user "" uid) := by
  have h : postUsers emptyStore (some "") 1 = (emptyStore, .logged .validationError) := by
    decide
  refine ⟨h, by decide, ?_⟩
  rintro ⟨uid, h2⟩
  rw [h] at h2
  cases h2

/-- C6 amended: for an identifier that is a well-formed ObjectId of no stored user, the logs
handler answers, whatever the query, with the empty array `[]` and status 200. -/
theorem logs_unknown_user_empty_array (env : Env) (s : Store) (id : String) (oid : ObjectId)
    (q : LogsQuery) (hid : castObjectId id = some oid) (hu : findOneById s oid = none) :
    getLogs env s id q = .sent .emptyArray := by
  simp [getLogs, hid, hu]

/-- C6 witness: the logs of an identifier unknown to `aliceStore`. -/
theorem logs_unknown_user_empty_array_stranger :
    getLogs hostUTC aliceStore strangerId ⟨none, none, some "5"⟩ = .sent .emptyArray :=
  logs_unknown_user_empty_array hostUTC aliceStore strangerId 2 ⟨none, none, some "5"⟩
    (by decide) (by decide)

/-- C6 counterexample: for an identifier of no user the handler sends a response, the empty
array, where the claim wants an error. -/
theorem logs_unknown_user_not_error :
    getLogs hostUTC aliceStore strangerId ⟨none, none, none⟩ = .sent .emptyArray := by
  decide

/-- C7 amended: for an existing user and a request without limit in which `from` or `to` is
a non-empty string that is no date, the handler answers with a logs response; it is built
from exactly the user's dated entries within the bounds, each bound being the time value of
the parsed string or, for the Invalid Date, the time value the driver writes for it. -/
theorem logs_malformed_date_filter (env : Env) (s : Store) (id : String) (oid : ObjectId)
    (u : User) (from_ to_ : Option String)
    (hid : castObjectId id = some oid) (hu : findOneById s oid = some u)
    (hbad : (∃ f, from_ = some f ∧ f ≠ "" ∧ newDate env f = none) ∨
      (∃ t, to_ = some t ∧ t ≠ "" ∧ newDate env t = none)) :
    ∃ retained : List Exercise,
      getLogs env s id ⟨from_, to_, none⟩ =
        .sent (.logs u.username retained.length (retained.map (logItem env))) ∧
      ∀ e, e ∈ retained ↔
        e ∈ s.exercises ∧ e.userId = u._id ∧ ∃ d, e.date = some d ∧
          (∀ f, from_ = some f → f ≠ "" → boundValue env (newDate env f) ≤ d) ∧
          (∀ t, to_ = some t → t ≠ "" → d ≤ boundValue env (newDate env t)) := by
  refine ⟨(buildPipeline env oid ⟨from_, to_, none⟩).foldl
    (fun docs st => st.apply env docs) s.exercises, ?_, ?_⟩
  · rw [getLogs_of_user hid hu, aggregate_nolimit]
  · have hsome : (truthy from_ || truthy to_) = true := by
      rcases hbad with ⟨f, rfl, hf, _⟩ | ⟨t, rfl, ht, _⟩
      · simp [truthy, hf]
      · simp [truthy, ht]
    intro e
    rw [findOneById_id hu, foldl_dateFilter env s oid from_ to_ hsome]
    simp only [List.mem_filter, decide_eq_true_eq]
    cases hd : e.date with
    | none => simp [dateMatches]
    | some d =>
      cases from_ with
      | none =>
        cases to_ with
        | none => simp [truthy] at hsome
        | some t =>
          by_cases ht : t = ""
          · simp [truthy, ht] at hsome
          · simp [dateMatches, truthy, ht, and_assoc]
      | some f =>
        cases to_ with
        | none =>
          by_cases hf : f = ""
          · simp [truthy, hf] at hsome
          · simp [dateMatches, truthy, hf, and_assoc]
        | some t =>
          by_cases hf : f = "" <;> by_cases ht : t = ""
          · simp [truthy, hf, ht] at hsome
          · simp [dateMatches, truthy, hf, ht, and_assoc]
          · simp [dateMatches, truthy, hf, ht, and_assoc]
          · simp [dateMatches, truthy, hf, ht, and_assoc]

/-- C7 witness: alice's log in `gymStore` with `from=nonsense`. -/
theorem logs_malformed_date_filter_gym :
    ∃ retained : List Exercise,
      getLogs hostUTC gymStore aliceId ⟨some "nonsense", none, none⟩ =
        .sent (.logs "alice" retained.length (retained.map (logItem hostUTC))) ∧
      ∀ e, e ∈ retained ↔
        e ∈ gymStore.exercises ∧ e.userId = 1 ∧ ∃ d, e.date = some d ∧
          (∀ f, some "nonsense" = some f → f ≠ "" →
            boundValue hostUTC (newDate hostUTC f) ≤ d) ∧
          (∀ t, (none : Option String) = some t → t ≠ "" →
            d ≤ boundValue hostUTC (newDate hostUTC t)) :=
  logs_malformed_date_filter hostUTC gymStore aliceId 1 ⟨1, "alice"⟩ (some "nonsense") none
    (by decide) (by decide) (Or.inl ⟨"nonsense", rfl, by decide, by decide⟩)

/-- C7 counterexample: with `from=garbage` the request succeeds and returns the entry, and
with `to=garbage` it succeeds with an empty log; neither fails with InvalidDateFilter. -/
theorem logs_malformed_date_succeeds :
    getLogs hostUTC aliceStore aliceId ⟨some "garbage", none, none⟩ =
        .sent (.logs "alice" 1 [⟨"run", .fin 30, "Tue Jan 10 2023"⟩]) ∧
      getLogs hostUTC aliceStore aliceId ⟨none, some "garbage", none⟩ =
        .sent (.logs "alice" 0 []) := by
  decide

/-- C8: on the empty store, an exercise submitted for an identifier of no user is saved
before the handler fails on `user.username`, so the store reached holds an entry whose
`userId` is the identifier of no stored user. -/
theorem exercise_for_unknown_user_persisted :
    postExercises hostUTC emptyStore aliceId runBody 0 7 =
        (⟨[], [⟨7, 1, "run", .fin 30, some 1673308800000⟩]⟩, .threw .typeError) ∧
      ¬ userIdsResolve (run hostUTC emptyStore [.postExercises aliceId runBody 0 7]) := by
  refine ⟨by decide, ?_⟩
  have h : run hostUTC emptyStore [.postExercises aliceId runBody 0 7] =
      ⟨[], [⟨7, 1, "run", .fin 30, some 1673308800000⟩]⟩ := by decide
  rw [h]
  intro hres
  obtain ⟨u, hu, _⟩ := hres _ (List.mem_singleton.mpr rfl)
  simp at hu

/-- C9 amended: for an existing user, a non-empty description, a duration text that is an
optional minus sign and a numeral of value at most `2 ^ 53`, a date text `YYYY-MM-DD` of a
calendar date, an unused exercise identifier, and a host whose local time at midnight UTC of
that date is at or ahead of UTC by less than a day, the unfiltered log after the submission
is the log before it followed by one entry with that description, the duration as an integer
and the date printed as week day, month, day and year. -/
theorem exercise_appears_in_log (env : Env) (s : Store) (id : String) (oid : ObjectId)
    (u : User) (desc : String) (neg : Bool) (ds : String) (y m d : Nat) (now : Int)
    (newId : ObjectId)
    (hid : castObjectId id = some oid) (hu : findOneById s oid = some u)
    (hdesc : desc ≠ "") (hnum : isNumeral ds) (hv : numeralValue ds ≤ 2 ^ 53)
    (hy : y ≤ 9999) (hm1 : 1 ≤ m) (hm2 : m ≤ 12) (hd1 : 1 ≤ d)
    (hd2 : d ≤ daysInMonth y (m - 1)) (hfresh : ∀ e ∈ s.exercises, e._id ≠ newId)
    (htz1 : 0 ≤ env.localTZA (MakeDay y (m - 1) d * msPerDay))
    (htz2 : env.localTZA (MakeDay y (m - 1) d * msPerDay) < msPerDay) :
    ∃ log : List LogItem,
      getLogs env s id ⟨none, none, none⟩ = .sent (.logs u.username log.length log) ∧
      getLogs env
          (postExercises env s id
            ⟨some desc, some ((if neg then "-" else "") ++ ds), some (isoDateText y m d)⟩
            now newId).1
          id ⟨none, none, none⟩ =
        .sent (.logs u.username (log.length + 1)
          (log ++ [⟨desc,
            JSNumber.fin (if neg then -(numeralValue ds : Int) else (numeralValue ds : Int)),
            calendarText y m d⟩])) := by
  refine ⟨(s.exercises.filter (fun e => decide (e.userId = u._id))).map (logItem env), ?_, ?_⟩
  · rw [getLogs_unfiltered env s id oid u hid hu]
    simp
  · rw [postExercises_valid env s id oid u desc neg ds y m d now newId hid hu hdesc hnum hv hy
      hm1 hm2 hd1 hd2 hfresh]
    have hu1 : findOneById { s with exercises := s.exercises ++
        [⟨newId, oid, desc,
          JSNumber.fin (if neg then -(numeralValue ds : Int) else (numeralValue ds : Int)),
          some (MakeDay y (m - 1) d * msPerDay)⟩] } oid = some u := hu
    rw [getLogs_unfiltered env _ id oid u hid hu1]
    simp [List.filter_append, findOneById_id hu, logItem,
      toDateString_of_date env y m d hm1 hm2 hd1 hd2 htz1 htz2]

/-- C9 witness: alice, registered alone, submits a run of 30 minutes on 2023-01-10 on a host
in UTC; her log is that one entry, dated "Tue Jan 10 2023", with count 1. -/
theorem exercise_appears_in_log_alice :
    getLogs hostUTC
        (postExercises hostUTC ⟨[⟨1, "alice"⟩], []⟩ aliceId
          ⟨some "run", some "30", some "2023-01-10"⟩ 0 7).1
        aliceId ⟨none, none, none⟩ =
      .sent (.logs "alice" 1 [⟨"run", JSNumber.fin 30, "Tue Jan 10 2023"⟩]) := by
  obtain ⟨log, h1, h2⟩ := exercise_appears_in_log hostUTC ⟨[⟨1, "alice"⟩], []⟩ aliceId 1
    ⟨1, "alice"⟩ "run" false "30" 2023 1 10 0 7 (by decide) (by decide) (by decide)
    (by decide) (by decide) (by decide) (by decide) (by decide) (by decide) (by decide)
    (by simp) (by decide) (by decide)
  have h0 : getLogs hostUTC ⟨[⟨1, "alice"⟩], []⟩ aliceId ⟨none, none, none⟩ =
      .sent (.logs "alice" 0 []) := by decide
  rw [h0] at h1
  have hlog : log = [] := by
    simp only [Outcome.sent.injEq, Response.logs.injEq, true_and] at h1
    exact h1.2.symm
  subst hlog
  have e1 : isoDateText 2023 1 10 = "2023-01-10" := by decide
  have e2 : calendarText 2023 1 10 = "Tue Jan 10 2023" := by decide
  have e3 : numeralValue "30" = 30 := by decide
  have e4 : (if false = true then "-" else "") ++ "30" = "30" := by decide
  rw [e1, e2, e3, e4] at h2
  simpa using h2

/-- C9 counterexample: on a host five hours west of UTC the scenario's entry is dated
"Mon Jan 09 2023", and the duration text 9007199254740993 is logged as 9007199254740992. -/
theorem log_date_and_duration_shift :
    getLogs hostEST
        (run hostEST emptyStore
          [.postUsers (some "alice") 1, .postExercises aliceId runBody 0 7])
        aliceId ⟨none, none, none⟩ =
      .sent (.logs "alice" 1 [⟨"run", JSNumber.fin 30, "Mon Jan 09 2023"⟩]) ∧
    getLogs hostUTC
        (run hostUTC emptyStore
          [.postUsers (some "alice") 1,
            .postExercises aliceId ⟨some "run", some "9007199254740993", some "2023-01-10"⟩ 0 7])
        aliceId ⟨none, none, none⟩ =
      .sent (.logs "alice" 1 [⟨"run", JSNumber.fin 9007199254740992, "Tue Jan 10 2023"⟩]) := by
  constructor <;> decide

/-- C10: after any sequence of registrations handled one after the other from the empty
store, the stored usernames are pairwise distinct and none is the empty string. -/
theorem registrations_keep_usernames_unique (env : Env)
    (regs : List (Option String × ObjectId)) :
    (((run env emptyStore (regs.map (fun r => Request.postUsers r.1 r.2))).users.map
        (fun u => u.username)).Nodup) ∧
      ∀ u ∈ (run env emptyStore (regs.map (fun r => Request.postUsers r.1 r.2))).users,
        u.username ≠ "" := by
  have h0 : usernamesWellFormed emptyStore := by
    simp [usernamesWellFormed, emptyStore]
  exact run_registrations_wellFormed env regs emptyStore h0

/-- C10 witness: a sequence with a repeated name, an empty name, an absent name and a reused
identifier. -/
theorem registrations_keep_usernames_unique_sample :
    (((run hostUTC emptyStore
        ([(some "alice", 1), (some "alice", 2), (some "", 3), (none, 4), (some "bob", 1),
          (some "bob", 5)].map (fun r => Request.postUsers r.1 r.2))).users.map
        (fun u => u.username)).Nodup) ∧
      ∀ u ∈ (run hostUTC emptyStore
        ([(some "alice", 1), (some "alice", 2), (some "", 3), (none, 4), (some "bob", 1),
          (some "bob", 5)].map (fun r => Request.postUsers r.1 r.2))).users,
        u.username ≠ "" :=
  registrations_keep_usernames_unique hostUTC
    [(some "alice", 1), (some "alice", 2), (some "", 3), (none, 4), (some "bob", 1),
      (some "bob", 5)]

end ExerciseTracker
